import Mathlib

/-!
Formal model of the tinyLedger service (`app/tinyLedger.py`, `app/handler.py`,
`app/schemas.py`).

The Python service keeps two in-process dictionaries, one mapping an account id
to its balance and one mapping an account id to its list of transactions, and
exposes `process_transaction`, `get_balance` and `list_transactions`.  The
model below is a direct shallow embedding: dictionaries become functions into
`Option`, Python float amounts become exact rationals `ℚ`, raised exceptions
become `Except` errors (the code validates before it mutates, so an exception
always leaves the dictionaries untouched), and the wall-clock timestamp becomes
an explicit argument.
-/

namespace TinyLedger

/-- The `TransactionType` enum of `app/schemas.py` (members DEPOSIT and
WITHDRAWAL). -/
inductive TransactionType where
  | deposit
  | withdrawal
deriving DecidableEq

/-- The `Transaction` pydantic model of `app/schemas.py`.  Amounts are Python
floats, modelled as exact rationals; the `datetime` timestamp is modelled as a
natural number (its value never matters to the service logic). -/
structure Transaction where
  id : String
  account_id : String
  type : TransactionType
  amount : ℚ
  description : Option String
  timestamp : Nat
deriving DecidableEq

/-- The errors the service can raise.  In the source, the amount check and the
two account checks raise Python `ValueError`, while `InsufficientFundsError` is
its own `Exception` subclass; the constructors record the raise site, and
`isValueError` below recovers the Python class seen by the HTTP handler. -/
inductive LedgerError where
  | validationError (msg : String)
  | notFoundError (msg : String)
  | insufficientFundsError (msg : String)
deriving DecidableEq

/-- Whether the raised error is a Python `ValueError`: true for the amount
validation and for the missing-account errors, false for
`InsufficientFundsError`. -/
def isValueError : LedgerError → Bool
  | LedgerError.validationError _ => true
  | LedgerError.notFoundError _ => true
  | LedgerError.insufficientFundsError _ => false

/-- Message of `ValueError(f"Transaction amount must be positive: {amount}")`. -/
def amount_error_msg (amount : ℚ) : String :=
  "Transaction amount must be positive: " ++ toString amount

/-- Message of `ValueError(f"Account {account_id} does not exist.")`. -/
def missing_account_msg (account_id : String) : String :=
  "Account " ++ account_id ++ " does not exist."

/-- Message of the `InsufficientFundsError` raised by
`_validate_withdrawal_is_possible` (the source formats it over several lines). -/
def insufficient_funds_msg (account_id : String) (amount : ℚ) : String :=
  "Insufficient funds for withdrawal: Account ID: " ++ account_id
    ++ ", Withdrawal Amount: " ++ toString amount

/-! ### Decimal rendering of natural numbers

`_generate_transaction_id` builds the id string with a Python f-string, which
renders the sequence number in decimal.  We model that rendering with a
fuel-based digit expansion (structural recursion, so every proof term below
reduces in the kernel) and prove it injective. -/

/-- Little-endian base-10 digits of `n`, with explicit fuel for structural
termination; `fuel ≥ n` suffices. -/
def decDigitsAux : Nat → Nat → List Nat
  | 0, _ => []
  | _ + 1, 0 => []
  | fuel + 1, n + 1 => ((n + 1) % 10) :: decDigitsAux fuel ((n + 1) / 10)

/-- Value of a little-endian base-10 digit list. -/
def undigits : List Nat → Nat
  | [] => 0
  | d :: l => d + 10 * undigits l

theorem undigits_decDigitsAux : ∀ (fuel n : Nat), n ≤ fuel →
    undigits (decDigitsAux fuel n) = n := by
  intro fuel
  induction fuel with
  | zero =>
    intro n hn
    simp only [Nat.le_zero] at hn
    subst hn
    rfl
  | succ f ih =>
    intro n hn
    cases n with
    | zero => rfl
    | succ m =>
      have hdiv : (m + 1) / 10 ≤ f := by
        have h1 : (m + 1) / 10 < m + 1 := Nat.div_lt_self (Nat.succ_pos m) (by decide)
        omega
      simp only [decDigitsAux, undigits, ih _ hdiv]
      omega

theorem decDigitsAux_lt : ∀ (fuel n : Nat), ∀ d ∈ decDigitsAux fuel n, d < 10 := by
  intro fuel
  induction fuel with
  | zero => intro n d hd; simp [decDigitsAux] at hd
  | succ f ih =>
    intro n d hd
    cases n with
    | zero => simp [decDigitsAux] at hd
    | succ m =>
      simp only [decDigitsAux, List.mem_cons] at hd
      rcases hd with h | h
      · subst h; exact Nat.mod_lt _ (by decide)
      · exact ih _ _ h

/-- Big-endian decimal digits of `n`, rendering `0` as the single digit `0`
exactly as Python `str` does. -/
def decimalDigitsBE (n : Nat) : List Nat :=
  if n = 0 then [0] else (decDigitsAux n n).reverse

theorem undigits_reverse_decimalDigitsBE (n : Nat) :
    undigits (decimalDigitsBE n).reverse = n := by
  unfold decimalDigitsBE
  split
  · subst n; rfl
  · rw [List.reverse_reverse, undigits_decDigitsAux n n (Nat.le_refl n)]

theorem decimalDigitsBE_lt (n : Nat) : ∀ d ∈ decimalDigitsBE n, d < 10 := by
  unfold decimalDigitsBE
  split
  · intro d hd; simp at hd; omega
  · intro d hd
    exact decDigitsAux_lt n n d (List.mem_reverse.mp hd)

theorem decimalDigitsBE_inj {m n : Nat} (h : decimalDigitsBE m = decimalDigitsBE n) :
    m = n := by
  have := undigits_reverse_decimalDigitsBE m
  rw [h, undigits_reverse_decimalDigitsBE] at this
  omega

/-- The character of a single decimal digit. -/
def digitToChar : Nat → Char
  | 0 => '0'
  | 1 => '1'
  | 2 => '2'
  | 3 => '3'
  | 4 => '4'
  | 5 => '5'
  | 6 => '6'
  | 7 => '7'
  | 8 => '8'
  | 9 => '9'
  | _ => '?'

theorem digitToChar_toNat {d : Nat} (h : d < 10) :
    (digitToChar d).toNat = 48 + d := by
  interval_cases d <;> rfl

theorem map_digitToChar_inj : ∀ (l1 l2 : List Nat),
    (∀ d ∈ l1, d < 10) → (∀ d ∈ l2, d < 10) →
    l1.map digitToChar = l2.map digitToChar → l1 = l2 := by
  intro l1
  induction l1 with
  | nil =>
    intro l2 _ _ h
    cases l2 with
    | nil => rfl
    | cons d t => simp at h
  | cons d t ih =>
    intro l2 h1 h2 h
    cases l2 with
    | nil => simp at h
    | cons d2 t2 =>
      simp only [List.map_cons, List.cons.injEq] at h
      have hd : d < 10 := h1 d (List.mem_cons_self d t)
      have hd2 : d2 < 10 := h2 d2 (List.mem_cons_self d2 t2)
      have hhead : d = d2 := by
        have := congrArg Char.toNat h.1
        rw [digitToChar_toNat hd, digitToChar_toNat hd2] at this
        omega
      have htail : t = t2 :=
        ih t2 (fun x hx => h1 x (List.mem_cons_of_mem d hx))
          (fun x hx => h2 x (List.mem_cons_of_mem d2 hx)) h.2
      rw [hhead, htail]

/-- Decimal string of a natural number, as a Python f-string renders it. -/
def natDecimal (n : Nat) : String :=
  String.mk ((decimalDigitsBE n).map digitToChar)

theorem natDecimal_inj {m n : Nat} (h : natDecimal m = natDecimal n) : m = n := by
  have h2 : (decimalDigitsBE m).map digitToChar = (decimalDigitsBE n).map digitToChar :=
    congrArg String.data h
  exact decimalDigitsBE_inj
    (map_digitToChar_inj _ _ (decimalDigitsBE_lt m) (decimalDigitsBE_lt n) h2)

example : natDecimal 3007 = "3007" := rfl
example : natDecimal 0 = "0" := rfl

/-- Modelled from the spec: `_generate_transaction_id` prefixes the sequence
number with Python `hash(account_id)`, an in-process hash the spec explicitly
declares an implementation detail, any fixed deterministic mapping being
acceptable.  We fix one concrete deterministic mapping. -/
def hashString (sv : String) : Nat :=
  sv.data.foldl (fun h c => h * 31 + c.toNat) 7

/-- The id the service gives the transaction recorded with sequence number `n`
for the account: a fixed per-account stem, an underscore, then `n` in
decimal. -/
def transaction_id_for (account_id : String) (n : Nat) : String :=
  natDecimal (hashString account_id) ++ "_" ++ natDecimal n

theorem string_append_cancel_left {p x y : String} (h : p ++ x = p ++ y) :
    x = y := by
  apply String.ext
  have hd := congrArg String.data h
  rw [String.data_append, String.data_append] at hd
  exact List.append_cancel_left hd

theorem transaction_id_for_inj {account_id : String} {m n : Nat}
    (h : transaction_id_for account_id m = transaction_id_for account_id n) :
    m = n := by
  unfold transaction_id_for at h
  exact natDecimal_inj (string_append_cancel_left h)

/-! ### The service state and its operations (`app/tinyLedger.py`) -/

/-- The state owned by a `LedgerService` instance: `__init__` creates the
empty dictionaries `_transactions : Dict[str, List[Transaction]]` and
`_balances : Dict[str, float]`, modelled as functions into `Option`. -/
structure LedgerService where
  transactions : String → Option (List Transaction)
  balances : String → Option ℚ

/-- Dictionary entry assignment `m[k] = v`. -/
def updMap {α : Type} (m : String → Option α) (k : String) (v : α) :
    String → Option α :=
  fun a => if a = k then some v else m a

/-- The state built by `LedgerService.__init__`: both dictionaries empty. -/
def emptyLedger : LedgerService :=
  { transactions := fun _ => none, balances := fun _ => none }

/-- `_generate_transaction_id`: sequence number is the current log length plus
one (`self._transactions.get(account_id, [])` defaults to the empty list), and
the id is the f-string `f"{hash(account_id)}_{transaction_number}"`. -/
def generate_transaction_id (s : LedgerService) (account_id : String) : String :=
  let transaction_number := ((s.transactions account_id).getD []).length + 1
  natDecimal (hashString account_id) ++ "_" ++ natDecimal transaction_number

/-- `_parse_transaction_request`: builds the `Transaction` record. -/
def parse_transaction_request (s : LedgerService) (account_id : String)
    (transaction_type : TransactionType) (amount : ℚ)
    (transaction_timestamp : Nat) (description : Option String) : Transaction :=
  { id := generate_transaction_id s account_id
    account_id := account_id
    type := transaction_type
    amount := amount
    description := description
    timestamp := transaction_timestamp }

/-- `_validate_transaction_amount`: raises `ValueError` when `amount <= 0`. -/
def validate_transaction_amount (amount : ℚ) : Except LedgerError Unit :=
  if amount ≤ 0 then
    Except.error (LedgerError.validationError (amount_error_msg amount))
  else
    Except.ok ()

/-- `_validate_withdrawal_is_possible`: raises `ValueError` when the account id
has no entry in `_balances`, then `InsufficientFundsError` when the stored
balance is strictly below the requested amount. -/
def validate_withdrawal_is_possible (s : LedgerService) (t : Transaction) :
    Except LedgerError Unit :=
  match s.balances t.account_id with
  | none => Except.error (LedgerError.notFoundError (missing_account_msg t.account_id))
  | some bal =>
    if bal < t.amount then
      Except.error
        (LedgerError.insufficientFundsError (insufficient_funds_msg t.account_id t.amount))
    else
      Except.ok ()

/-- `_setup_account_if_not_exists`: two independent if-statements, each adding
a default entry to its dictionary when the key is missing (the first touches
only `_transactions`, the second only `_balances`). -/
def setup_account_if_not_exists (s : LedgerService) (account_id : String) :
    LedgerService :=
  { transactions :=
      match s.transactions account_id with
      | none => updMap s.transactions account_id []
      | some _ => s.transactions
    balances :=
      match s.balances account_id with
      | none => updMap s.balances account_id 0
      | some _ => s.balances }

/-- `_record_transaction`: appends to the account log, then adds the amount to
the balance for a deposit and subtracts it for a withdrawal.  Python indexes
the dictionaries directly; the caller (`process_transaction`) has just run
`_setup_account_if_not_exists`, so both keys are present and the `getD`
defaults are never the values actually read.  The Python `else` branch raising
on an unknown type has no counterpart: the enum has exactly the two members. -/
def record_transaction (s : LedgerService) (t : Transaction) : LedgerService :=
  let s1 : LedgerService :=
    { s with transactions :=
        updMap s.transactions t.account_id (((s.transactions t.account_id).getD []) ++ [t]) }
  match t.type with
  | TransactionType.deposit =>
    { s1 with balances :=
        updMap s1.balances t.account_id (((s1.balances t.account_id).getD 0) + t.amount) }
  | TransactionType.withdrawal =>
    { s1 with balances :=
        updMap s1.balances t.account_id (((s1.balances t.account_id).getD 0) - t.amount) }

/-- `process_transaction`: parse, validate (amount first, then the withdrawal
checks), then set up the account and record.  A raised exception propagates
before any dictionary is touched, so the error result carries no new state. -/
def process_transaction (s : LedgerService) (account_id : String)
    (transaction_type : TransactionType) (amount : ℚ)
    (description : Option String) (now : Nat) : Except LedgerError LedgerService :=
  let transaction :=
    parse_transaction_request s account_id transaction_type amount now description
  match validate_transaction_amount transaction.amount with
  | Except.error e => Except.error e
  | Except.ok _ =>
    match (if transaction.type = TransactionType.withdrawal then
            validate_withdrawal_is_possible s transaction
          else Except.ok ()) with
    | Except.error e => Except.error e
    | Except.ok _ =>
      Except.ok (record_transaction (setup_account_if_not_exists s transaction.account_id)
        transaction)

/-- `get_balance`: raises `ValueError` when the account id is not in
`_balances`, otherwise returns the stored balance. -/
def get_balance (s : LedgerService) (account_id : String) : Except LedgerError ℚ :=
  match s.balances account_id with
  | none => Except.error (LedgerError.notFoundError (missing_account_msg account_id))
  | some b => Except.ok b

/-- `list_transactions`: raises `ValueError` when the account id is not in
`_transactions`, otherwise returns the stored log. -/
def list_transactions (s : LedgerService) (account_id : String) :
    Except LedgerError (List Transaction) :=
  match s.transactions account_id with
  | none => Except.error (LedgerError.notFoundError (missing_account_msg account_id))
  | some l => Except.ok l

/-! ### The HTTP handler (`app/handler.py`)

`create_transaction` calls the service and maps a caught Python `ValueError`
to HTTP 404 and a caught `InsufficientFundsError` to HTTP 400; success is 201.
We model the response by its status code. -/

/-- The `TransactionRequest` body of `POST /transactions/{account_id}`. -/
structure TransactionRequest where
  amount : ℚ
  type : TransactionType
  description : Option String

/-- The `create_transaction` endpoint: resulting service state and HTTP
status. -/
def create_transaction (svc : LedgerService) (account_id : String)
    (request : TransactionRequest) (now : Nat) : LedgerService × Nat :=
  match process_transaction svc account_id request.type request.amount
      request.description now with
  | Except.ok s1 => (s1, 201)
  | Except.error e => (svc, if isValueError e then 404 else 400)

/-! ### Operation sequences

A reachable state is the result of running a list of `process_transaction`
calls from the freshly constructed service. -/

/-- One `process_transaction` call: its arguments, with the wall-clock time of
the call. -/
structure Op where
  account_id : String
  type : TransactionType
  amount : ℚ
  description : Option String
  now : Nat

def processOp (s : LedgerService) (op : Op) : Except LedgerError LedgerService :=
  process_transaction s op.account_id op.type op.amount op.description op.now

/-- Whether a call returned normally. -/
def exceptOk {ε α : Type} : Except ε α → Bool
  | Except.ok _ => true
  | Except.error _ => false

/-- The state after one call: a raised exception leaves the state as it was. -/
def applyOp (s : LedgerService) (op : Op) : LedgerService :=
  match processOp s op with
  | Except.ok s1 => s1
  | Except.error _ => s

/-- The state after a sequence of calls. -/
def runOps (s : LedgerService) (ops : List Op) : LedgerService :=
  ops.foldl applyOp s

/-- The transaction record a call would append (built by
`_parse_transaction_request` before validation). -/
def opTransaction (s : LedgerService) (op : Op) : Transaction :=
  parse_transaction_request s op.account_id op.type op.amount op.now op.description

/-- Whether some call of the sequence targeted the account and returned
normally. -/
def everProcessedFrom (s : LedgerService) (a : String) : List Op → Bool
  | [] => false
  | op :: rest =>
    ((op.account_id == a) && exceptOk (processOp s op))
      || everProcessedFrom (applyOp s op) a rest

/-- The transactions the sequence successfully records for the account, in
processing order. -/
def recordedFrom (s : LedgerService) (a : String) : List Op → List Transaction
  | [] => []
  | op :: rest =>
    (if (op.account_id == a) && exceptOk (processOp s op) then [opTransaction s op]
     else [])
      ++ recordedFrom (applyOp s op) a rest

/-- Sum of the amounts of the deposit transactions of a log. -/
def sumDeposits (l : List Transaction) : ℚ :=
  ((l.filter fun t => decide (t.type = TransactionType.deposit)).map
    Transaction.amount).sum

/-- Sum of the amounts of the withdrawal transactions of a log. -/
def sumWithdrawals (l : List Transaction) : ℚ :=
  ((l.filter fun t => decide (t.type = TransactionType.withdrawal)).map
    Transaction.amount).sum

/-! ### Structural lemmas about the individual steps -/

@[simp]
theorem opTransaction_account_id (s : LedgerService) (op : Op) :
    (opTransaction s op).account_id = op.account_id := rfl

@[simp]
theorem opTransaction_type (s : LedgerService) (op : Op) :
    (opTransaction s op).type = op.type := rfl

@[simp]
theorem opTransaction_amount (s : LedgerService) (op : Op) :
    (opTransaction s op).amount = op.amount := rfl

theorem opTransaction_id (s : LedgerService) (op : Op) :
    (opTransaction s op).id
      = transaction_id_for op.account_id
          (((s.transactions op.account_id).getD []).length + 1) := rfl

theorem setup_transactions_self (s : LedgerService) (a : String) :
    (setup_account_if_not_exists s a).transactions a
      = some ((s.transactions a).getD []) := by
  unfold setup_account_if_not_exists
  cases h : s.transactions a with
  | none => simp [h, updMap]
  | some l => simp [h]

theorem setup_balances_self (s : LedgerService) (a : String) :
    (setup_account_if_not_exists s a).balances a
      = some ((s.balances a).getD 0) := by
  unfold setup_account_if_not_exists
  cases h : s.balances a with
  | none => simp [h, updMap]
  | some b => simp [h]

theorem setup_transactions_ne (s : LedgerService) {a c : String} (hc : c ≠ a) :
    (setup_account_if_not_exists s a).transactions c = s.transactions c := by
  unfold setup_account_if_not_exists
  cases h : s.transactions a with
  | none => simp [updMap, hc]
  | some l => simp

theorem setup_balances_ne (s : LedgerService) {a c : String} (hc : c ≠ a) :
    (setup_account_if_not_exists s a).balances c = s.balances c := by
  unfold setup_account_if_not_exists
  cases h : s.balances a with
  | none => simp [updMap, hc]
  | some b => simp

theorem record_transactions_self (s : LedgerService) (t : Transaction) :
    (record_transaction s t).transactions t.account_id
      = some (((s.transactions t.account_id).getD []) ++ [t]) := by
  unfold record_transaction
  cases h : t.type <;> simp [h, updMap]

theorem record_balances_self_deposit (s : LedgerService) (t : Transaction)
    (h : t.type = TransactionType.deposit) :
    (record_transaction s t).balances t.account_id
      = some (((s.balances t.account_id).getD 0) + t.amount) := by
  unfold record_transaction
  simp [h, updMap]

theorem record_balances_self_withdrawal (s : LedgerService) (t : Transaction)
    (h : t.type = TransactionType.withdrawal) :
    (record_transaction s t).balances t.account_id
      = some (((s.balances t.account_id).getD 0) - t.amount) := by
  unfold record_transaction
  simp [h, updMap]

theorem record_transactions_ne (s : LedgerService) (t : Transaction)
    {c : String} (hc : c ≠ t.account_id) :
    (record_transaction s t).transactions c = s.transactions c := by
  unfold record_transaction
  cases h : t.type <;> simp [h, updMap, hc]

theorem record_balances_ne (s : LedgerService) (t : Transaction)
    {c : String} (hc : c ≠ t.account_id) :
    (record_transaction s t).balances c = s.balances c := by
  unfold record_transaction
  cases h : t.type <;> simp [h, updMap, hc]

/-- The state a successful call builds: account set up, transaction recorded. -/
def successState (s : LedgerService) (op : Op) : LedgerService :=
  record_transaction (setup_account_if_not_exists s op.account_id) (opTransaction s op)

theorem successState_transactions_self (s : LedgerService) (op : Op) :
    (successState s op).transactions op.account_id
      = some (((s.transactions op.account_id).getD []) ++ [opTransaction s op]) := by
  unfold successState
  have h := record_transactions_self (setup_account_if_not_exists s op.account_id)
    (opTransaction s op)
  rw [opTransaction_account_id] at h
  rw [h, setup_transactions_self]
  simp

theorem successState_balances_self_deposit (s : LedgerService) (op : Op)
    (hty : op.type = TransactionType.deposit) :
    (successState s op).balances op.account_id
      = some (((s.balances op.account_id).getD 0) + op.amount) := by
  unfold successState
  have h := record_balances_self_deposit (setup_account_if_not_exists s op.account_id)
    (opTransaction s op) (by simpa using hty)
  rw [opTransaction_account_id, opTransaction_amount] at h
  rw [h, setup_balances_self]
  simp

theorem successState_balances_self_withdrawal (s : LedgerService) (op : Op)
    (hty : op.type = TransactionType.withdrawal) :
    (successState s op).balances op.account_id
      = some (((s.balances op.account_id).getD 0) - op.amount) := by
  unfold successState
  have h := record_balances_self_withdrawal (setup_account_if_not_exists s op.account_id)
    (opTransaction s op) (by simpa using hty)
  rw [opTransaction_account_id, opTransaction_amount] at h
  rw [h, setup_balances_self]
  simp

theorem successState_transactions_ne (s : LedgerService) (op : Op)
    {c : String} (hc : c ≠ op.account_id) :
    (successState s op).transactions c = s.transactions c := by
  unfold successState
  rw [record_transactions_ne _ _ (by simpa using hc), setup_transactions_ne s hc]

theorem successState_balances_ne (s : LedgerService) (op : Op)
    {c : String} (hc : c ≠ op.account_id) :
    (successState s op).balances c = s.balances c := by
  unfold successState
  rw [record_balances_ne _ _ (by simpa using hc), setup_balances_ne s hc]

/-! ### How `process_transaction` resolves, case by case -/

theorem process_amount_error (s : LedgerService) (a : String)
    (ty : TransactionType) (amount : ℚ) (d : Option String) (now : Nat)
    (h : amount ≤ 0) :
    process_transaction s a ty amount d now
      = Except.error (LedgerError.validationError (amount_error_msg amount)) := by
  unfold process_transaction
  simp [validate_transaction_amount, parse_transaction_request, h]

theorem process_withdrawal_missing (s : LedgerService) (a : String)
    (amount : ℚ) (d : Option String) (now : Nat)
    (h0 : 0 < amount) (hb : s.balances a = none) :
    process_transaction s a TransactionType.withdrawal amount d now
      = Except.error (LedgerError.notFoundError (missing_account_msg a)) := by
  unfold process_transaction
  simp [validate_transaction_amount, validate_withdrawal_is_possible,
    parse_transaction_request, not_le.mpr h0, hb]

theorem process_withdrawal_insufficient (s : LedgerService) (a : String)
    (amount b : ℚ) (d : Option String) (now : Nat)
    (h0 : 0 < amount) (hb : s.balances a = some b) (hlt : b < amount) :
    process_transaction s a TransactionType.withdrawal amount d now
      = Except.error
          (LedgerError.insufficientFundsError (insufficient_funds_msg a amount)) := by
  unfold process_transaction
  simp [validate_transaction_amount, validate_withdrawal_is_possible,
    parse_transaction_request, not_le.mpr h0, hb, hlt]

theorem processOp_deposit_ok (s : LedgerService) (op : Op)
    (h0 : 0 < op.amount) (hty : op.type = TransactionType.deposit) :
    processOp s op = Except.ok (successState s op) := by
  unfold processOp process_transaction successState opTransaction
  simp [validate_transaction_amount, parse_transaction_request, not_le.mpr h0, hty]

theorem processOp_withdrawal_ok (s : LedgerService) (op : Op) (b : ℚ)
    (h0 : 0 < op.amount) (hty : op.type = TransactionType.withdrawal)
    (hb : s.balances op.account_id = some b) (hle : op.amount ≤ b) :
    processOp s op = Except.ok (successState s op) := by
  unfold processOp process_transaction successState opTransaction
  simp [validate_transaction_amount, validate_withdrawal_is_possible,
    parse_transaction_request, not_le.mpr h0, hty, hb, not_lt.mpr hle]

/-- Inversion: a normal return means the amount was positive, a withdrawal had
an existing account with sufficient funds, and the new state is the recorded
success state. -/
theorem processOp_ok (s : LedgerService) (op : Op) (s1 : LedgerService)
    (h : processOp s op = Except.ok s1) :
    s1 = successState s op ∧ 0 < op.amount ∧
      (op.type = TransactionType.withdrawal →
        ∃ b, s.balances op.account_id = some b ∧ op.amount ≤ b) := by
  by_cases h0 : op.amount ≤ 0
  · rw [show processOp s op
        = process_transaction s op.account_id op.type op.amount op.description op.now
        from rfl, process_amount_error _ _ _ _ _ _ h0] at h
    exact absurd h (by simp)
  · have h0' : 0 < op.amount := not_le.mp h0
    cases hty : op.type with
    | deposit =>
      rw [processOp_deposit_ok s op h0' hty] at h
      simp only [Except.ok.injEq] at h
      refine ⟨h.symm, h0', ?_⟩
      intro hw
      exact absurd hw (by simp)
    | withdrawal =>
      cases hb : s.balances op.account_id with
      | none =>
        rw [show processOp s op
            = process_transaction s op.account_id op.type op.amount op.description op.now
            from rfl, hty, process_withdrawal_missing _ _ _ _ _ h0' hb] at h
        exact absurd h (by simp)
      | some b =>
        by_cases hlt : b < op.amount
        · rw [show processOp s op
              = process_transaction s op.account_id op.type op.amount op.description op.now
              from rfl, hty, process_withdrawal_insufficient _ _ _ _ _ _ h0' hb hlt] at h
          exact absurd h (by simp)
        · rw [processOp_withdrawal_ok s op b h0' hty hb (not_lt.mp hlt)] at h
          simp only [Except.ok.injEq] at h
          exact ⟨h.symm, h0', fun _ => ⟨b, rfl, not_lt.mp hlt⟩⟩

theorem applyOp_of_error (s : LedgerService) (op : Op) (e : LedgerError)
    (h : processOp s op = Except.error e) : applyOp s op = s := by
  simp [applyOp, h]

theorem applyOp_of_ok (s : LedgerService) (op : Op) (s1 : LedgerService)
    (h : processOp s op = Except.ok s1) : applyOp s op = s1 := by
  simp [applyOp, h]

/-! ### Sums over a log -/

theorem sumDeposits_append (l1 l2 : List Transaction) :
    sumDeposits (l1 ++ l2) = sumDeposits l1 + sumDeposits l2 := by
  simp [sumDeposits, List.filter_append]

theorem sumWithdrawals_append (l1 l2 : List Transaction) :
    sumWithdrawals (l1 ++ l2) = sumWithdrawals l1 + sumWithdrawals l2 := by
  simp [sumWithdrawals, List.filter_append]

theorem sumDeposits_single_deposit (t : Transaction)
    (h : t.type = TransactionType.deposit) : sumDeposits [t] = t.amount := by
  simp [sumDeposits, h]

theorem sumDeposits_single_withdrawal (t : Transaction)
    (h : t.type = TransactionType.withdrawal) : sumDeposits [t] = 0 := by
  simp [sumDeposits, h]

theorem sumWithdrawals_single_deposit (t : Transaction)
    (h : t.type = TransactionType.deposit) : sumWithdrawals [t] = 0 := by
  simp [sumWithdrawals, h]

theorem sumWithdrawals_single_withdrawal (t : Transaction)
    (h : t.type = TransactionType.withdrawal) : sumWithdrawals [t] = t.amount := by
  simp [sumWithdrawals, h]

/-! ### The reachable-state invariant -/

/-- Everything the claims need of one account of a reachable state: the two
dictionaries know the same accounts; a stored log is non-empty; its entries
belong to the account and carry the sequential ids; and the stored balance is
the net of the stored log. -/
def accountOk (s : LedgerService) (a : String) : Prop :=
  ((s.balances a).isSome = (s.transactions a).isSome)
  ∧ ∀ l, s.transactions a = some l →
      (l ≠ []
      ∧ (∀ i (hi : i < l.length),
          (l.get ⟨i, hi⟩).account_id = a
          ∧ (l.get ⟨i, hi⟩).id = transaction_id_for a (i + 1))
      ∧ ∀ b, s.balances a = some b → b = sumDeposits l - sumWithdrawals l)

def Inv (s : LedgerService) : Prop := ∀ a, accountOk s a

theorem inv_empty : Inv emptyLedger := by
  intro a
  exact ⟨rfl, fun l hl => by simp [emptyLedger] at hl⟩

/-- What the log properties of the invariant say about the current (possibly
absent) log of an account. -/
theorem inv_getD_props (s : LedgerService) (a : String) (h : Inv s) :
    ∀ i (hi : i < ((s.transactions a).getD []).length),
      (((s.transactions a).getD []).get ⟨i, hi⟩).account_id = a
      ∧ (((s.transactions a).getD []).get ⟨i, hi⟩).id = transaction_id_for a (i + 1) := by
  cases hT : s.transactions a with
  | none => intro i hi; simp at hi
  | some l0 =>
    intro i hi
    have hprops := ((h a).2 l0 hT).2.1
    exact hprops i hi

/-- The invariant relates the current (possibly absent) balance of an account
to the net of its current (possibly absent) log, read with the defaults that
`record_transaction` uses. -/
theorem inv_getD_net (s : LedgerService) (a : String) (h : Inv s) :
    (s.balances a).getD 0
      = sumDeposits ((s.transactions a).getD [])
        - sumWithdrawals ((s.transactions a).getD []) := by
  cases hB : s.balances a with
  | none =>
    have hdom := (h a).1
    rw [hB] at hdom
    cases hT : s.transactions a with
    | none => simp [sumDeposits, sumWithdrawals]
    | some l0 => rw [hT] at hdom; simp at hdom
  | some b0 =>
    have hdom := (h a).1
    rw [hB] at hdom
    cases hT : s.transactions a with
    | none => rw [hT] at hdom; simp at hdom
    | some l0 =>
      have := ((h a).2 l0 hT).2.2 b0 hB
      simpa using this

theorem inv_applyOp (s : LedgerService) (op : Op) (h : Inv s) :
    Inv (applyOp s op) := by
  cases hp : processOp s op with
  | error e => rw [applyOp_of_error s op e hp]; exact h
  | ok s1 =>
    rw [applyOp_of_ok s op s1 hp]
    obtain ⟨hs1, h0, hwd⟩ := processOp_ok s op s1 hp
    subst hs1
    intro c
    by_cases hc : c = op.account_id
    · subst hc
      constructor
      · have hbal : ((successState s op).balances op.account_id).isSome = true := by
          cases hty : op.type with
          | deposit => rw [successState_balances_self_deposit s op hty]; rfl
          | withdrawal => rw [successState_balances_self_withdrawal s op hty]; rfl
        rw [hbal, successState_transactions_self]
        rfl
      · intro l hl
        rw [successState_transactions_self] at hl
        simp only [Option.some.injEq] at hl
        subst hl
        refine ⟨by simp, ?_, ?_⟩
        · -- sequential ids and ownership, entry by entry
          intro i hi
          have hlen : i < ((s.transactions op.account_id).getD []).length + 1 := by
            simpa [List.length_append] using hi
          rcases Nat.lt_or_ge i ((s.transactions op.account_id).getD []).length with hlt | hge
          · rw [show (((s.transactions op.account_id).getD []) ++ [opTransaction s op]).get
                  ⟨i, hi⟩
                = ((s.transactions op.account_id).getD []).get ⟨i, hlt⟩
              from List.get_append i hlt]
            exact inv_getD_props s op.account_id h i hlt
          · have hieq : i = ((s.transactions op.account_id).getD []).length := by omega
            rw [show (((s.transactions op.account_id).getD []) ++ [opTransaction s op]).get
                  ⟨i, hi⟩
                = opTransaction s op
              from by
                rw [List.get_eq_getElem]
                exact List.getElem_concat_length _ _ i hieq (by simpa using hi)]
            exact ⟨rfl, by rw [opTransaction_id, hieq]⟩
        · -- the new balance is the net of the new log
          intro b hb
          have hnet := inv_getD_net s op.account_id h
          cases hty : op.type with
          | deposit =>
            rw [successState_balances_self_deposit s op hty] at hb
            simp only [Option.some.injEq] at hb
            subst hb
            rw [sumDeposits_append, sumWithdrawals_append,
              sumDeposits_single_deposit _ (by simpa using hty),
              sumWithdrawals_single_deposit _ (by simpa using hty), hnet]
            simp only [opTransaction_amount]
            ring
          | withdrawal =>
            rw [successState_balances_self_withdrawal s op hty] at hb
            simp only [Option.some.injEq] at hb
            subst hb
            rw [sumDeposits_append, sumWithdrawals_append,
              sumDeposits_single_withdrawal _ (by simpa using hty),
              sumWithdrawals_single_withdrawal _ (by simpa using hty), hnet]
            simp only [opTransaction_amount]
            ring
    · have h1 : (successState s op).transactions c = s.transactions c :=
        successState_transactions_ne s op hc
      have h2 : (successState s op).balances c = s.balances c :=
        successState_balances_ne s op hc
      constructor
      · rw [h1, h2]; exact (h c).1
      · intro l hl
        rw [h1] at hl
        have hprops := (h c).2 l hl
        refine ⟨hprops.1, hprops.2.1, ?_⟩
        intro b hb
        rw [h2] at hb
        exact hprops.2.2 b hb

theorem inv_runOps : ∀ (ops : List Op) (s : LedgerService), Inv s → Inv (runOps s ops) := by
  intro ops
  induction ops with
  | nil => intro s h; exact h
  | cons op rest ih => intro s h; exact ih (applyOp s op) (inv_applyOp s op h)

/-! ### How the dictionaries evolve along a sequence of calls -/

theorem applyOp_balances_isSome (s : LedgerService) (op : Op) (a : String) :
    ((applyOp s op).balances a).isSome
      = ((s.balances a).isSome || ((op.account_id == a) && exceptOk (processOp s op))) := by
  cases hp : processOp s op with
  | error e => rw [applyOp_of_error s op e hp]; simp [exceptOk]
  | ok s1 =>
    rw [applyOp_of_ok s op s1 hp]
    obtain ⟨hs1, h0, hwd⟩ := processOp_ok s op s1 hp
    subst hs1
    by_cases hc : op.account_id = a
    · subst hc
      have hsome : ((successState s op).balances op.account_id).isSome = true := by
        cases hty : op.type with
        | deposit => rw [successState_balances_self_deposit s op hty]; rfl
        | withdrawal => rw [successState_balances_self_withdrawal s op hty]; rfl
      rw [hsome]
      simp [exceptOk, hp]
    · have hne : a ≠ op.account_id := fun hh => hc hh.symm
      rw [successState_balances_ne s op hne]
      have hbeq : (op.account_id == a) = false := beq_eq_false_iff_ne.mpr hc
      simp [hbeq]

theorem applyOp_transactions_isSome (s : LedgerService) (op : Op) (a : String) :
    ((applyOp s op).transactions a).isSome
      = ((s.transactions a).isSome || ((op.account_id == a) && exceptOk (processOp s op))) := by
  cases hp : processOp s op with
  | error e => rw [applyOp_of_error s op e hp]; simp [exceptOk]
  | ok s1 =>
    rw [applyOp_of_ok s op s1 hp]
    obtain ⟨hs1, h0, hwd⟩ := processOp_ok s op s1 hp
    subst hs1
    by_cases hc : op.account_id = a
    · subst hc
      rw [successState_transactions_self]
      simp [exceptOk, hp]
    · have hne : a ≠ op.account_id := fun hh => hc hh.symm
      rw [successState_transactions_ne s op hne]
      have hbeq : (op.account_id == a) = false := beq_eq_false_iff_ne.mpr hc
      simp [hbeq]

theorem applyOp_transactions_getD (s : LedgerService) (op : Op) (a : String) :
    ((applyOp s op).transactions a).getD []
      = ((s.transactions a).getD [])
        ++ (if (op.account_id == a) && exceptOk (processOp s op) then
              [opTransaction s op]
            else []) := by
  cases hp : processOp s op with
  | error e => rw [applyOp_of_error s op e hp]; simp [exceptOk]
  | ok s1 =>
    rw [applyOp_of_ok s op s1 hp]
    obtain ⟨hs1, h0, hwd⟩ := processOp_ok s op s1 hp
    subst hs1
    by_cases hc : op.account_id = a
    · subst hc
      rw [successState_transactions_self]
      simp [exceptOk, hp]
    · have hne : a ≠ op.account_id := fun hh => hc hh.symm
      rw [successState_transactions_ne s op hne]
      have hbeq : (op.account_id == a) = false := beq_eq_false_iff_ne.mpr hc
      simp [hbeq]

theorem runOps_balances_isSome : ∀ (ops : List Op) (s : LedgerService) (a : String),
    ((runOps s ops).balances a).isSome
      = ((s.balances a).isSome || everProcessedFrom s a ops) := by
  intro ops
  induction ops with
  | nil => intro s a; simp [runOps, everProcessedFrom]
  | cons op rest ih =>
    intro s a
    show ((runOps (applyOp s op) rest).balances a).isSome = _
    rw [ih (applyOp s op) a, applyOp_balances_isSome]
    simp only [everProcessedFrom]
    rw [Bool.or_assoc]

theorem runOps_transactions_isSome : ∀ (ops : List Op) (s : LedgerService) (a : String),
    ((runOps s ops).transactions a).isSome
      = ((s.transactions a).isSome || everProcessedFrom s a ops) := by
  intro ops
  induction ops with
  | nil => intro s a; simp [runOps, everProcessedFrom]
  | cons op rest ih =>
    intro s a
    show ((runOps (applyOp s op) rest).transactions a).isSome = _
    rw [ih (applyOp s op) a, applyOp_transactions_isSome]
    simp only [everProcessedFrom]
    rw [Bool.or_assoc]

theorem runOps_transactions_getD : ∀ (ops : List Op) (s : LedgerService) (a : String),
    ((runOps s ops).transactions a).getD []
      = ((s.transactions a).getD []) ++ recordedFrom s a ops := by
  intro ops
  induction ops with
  | nil => intro s a; simp [runOps, recordedFrom]
  | cons op rest ih =>
    intro s a
    show ((runOps (applyOp s op) rest).transactions a).getD [] = _
    rw [ih (applyOp s op) a, applyOp_transactions_getD]
    simp only [recordedFrom]
    rw [List.append_assoc]

/-! ### Concrete fixtures used to instantiate the theorems -/

/-- A service that processed one deposit of 50 on account `acc1`. -/
def ledgerWith50 : LedgerService :=
  applyOp emptyLedger ⟨"acc1", TransactionType.deposit, 50, none, 0⟩

/-- A deposit of 150 followed by a withdrawal of 100 on account `acc1`. -/
def opsDW : List Op :=
  [⟨"acc1", TransactionType.deposit, 150, none, 0⟩,
   ⟨"acc1", TransactionType.withdrawal, 100, none, 1⟩]

/-! ### The claims -/

/-- C1: after every sequence of operations from the fresh service, the stored
balance of every account equals the sum of the amounts of its recorded
deposits minus the sum of the amounts of its recorded withdrawals. -/
theorem C1_balance_equals_net (ops : List Op) (a : String) (b : ℚ)
    (l : List Transaction)
    (hb : (runOps emptyLedger ops).balances a = some b)
    (hl : (runOps emptyLedger ops).transactions a = some l) :
    b = sumDeposits l - sumWithdrawals l := by
  have hInv := inv_runOps ops emptyLedger inv_empty
  exact ((hInv a).2 l hl).2.2 b hb

theorem C1_balance_equals_net_witness :
    (50 : ℚ)
      = sumDeposits (((runOps emptyLedger opsDW).transactions "acc1").getD [])
        - sumWithdrawals (((runOps emptyLedger opsDW).transactions "acc1").getD []) :=
  C1_balance_equals_net opsDW "acc1" 50
    (((runOps emptyLedger opsDW).transactions "acc1").getD [])
    (by with_unfolding_all decide) (by with_unfolding_all rfl)

/-- C2: a withdrawal whose positive amount strictly exceeds the stored balance
raises `InsufficientFundsError` and leaves the whole store unchanged. -/
theorem C2_insufficient_funds_rejected (s : LedgerService) (a : String)
    (amount b : ℚ) (d : Option String) (now : Nat)
    (hb : s.balances a = some b) (h0 : 0 < amount) (hgt : b < amount) :
    process_transaction s a TransactionType.withdrawal amount d now
      = Except.error
          (LedgerError.insufficientFundsError (insufficient_funds_msg a amount))
    ∧ applyOp s ⟨a, TransactionType.withdrawal, amount, d, now⟩ = s := by
  have he := process_withdrawal_insufficient s a amount b d now h0 hb hgt
  exact ⟨he, applyOp_of_error _ _ _ he⟩

theorem C2_insufficient_funds_rejected_witness :
    process_transaction ledgerWith50 "acc1" TransactionType.withdrawal 100 none 1
      = Except.error
          (LedgerError.insufficientFundsError (insufficient_funds_msg "acc1" 100))
    ∧ applyOp ledgerWith50 ⟨"acc1", TransactionType.withdrawal, 100, none, 1⟩
        = ledgerWith50 :=
  C2_insufficient_funds_rejected ledgerWith50 "acc1" 100 50 none 1
    (by with_unfolding_all decide) (by decide) (by decide)

/-- C3: evaluation of the HTTP layer at concrete requests.  A non-positive
amount is raised as a Python `ValueError`, which `create_transaction` catches
and maps to status 404, not the 400 the claim states; a withdrawal on a
missing account gets 404 and an insufficient-funds withdrawal gets 400. -/
theorem C3_http_status_eval :
    (create_transaction emptyLedger "acc1"
        { amount := 0, type := TransactionType.deposit, description := none } 0).2 = 404
    ∧ (create_transaction emptyLedger "acc1"
        { amount := 50, type := TransactionType.withdrawal, description := none } 0).2 = 404
    ∧ (create_transaction ledgerWith50 "acc1"
        { amount := 100, type := TransactionType.withdrawal, description := none } 1).2 = 400 := by
  with_unfolding_all decide

/-- C4: a non-positive amount is rejected with the amount `ValueError` for
every state, account and type, before any existence or funds check, and the
state is unchanged. -/
theorem C4_nonpositive_amount_rejected (s : LedgerService) (a : String)
    (ty : TransactionType) (amount : ℚ) (d : Option String) (now : Nat)
    (h : amount ≤ 0) :
    process_transaction s a ty amount d now
      = Except.error (LedgerError.validationError (amount_error_msg amount))
    ∧ applyOp s ⟨a, ty, amount, d, now⟩ = s := by
  have he := process_amount_error s a ty amount d now h
  exact ⟨he, applyOp_of_error _ _ _ he⟩

theorem C4_nonpositive_amount_rejected_witness :
    process_transaction emptyLedger "acc1" TransactionType.withdrawal 0 none 0
      = Except.error (LedgerError.validationError (amount_error_msg 0))
    ∧ applyOp emptyLedger ⟨"acc1", TransactionType.withdrawal, 0, none, 0⟩
        = emptyLedger :=
  C4_nonpositive_amount_rejected emptyLedger "acc1" TransactionType.withdrawal 0 none 0
    (by decide)

/-- C5: a positive withdrawal on an account the balance dictionary does not
know raises the missing-account `ValueError`; the account is not created and
the state is unchanged. -/
theorem C5_withdrawal_missing_account (s : LedgerService) (a : String)
    (amount : ℚ) (d : Option String) (now : Nat)
    (hmiss : s.balances a = none) (h0 : 0 < amount) :
    process_transaction s a TransactionType.withdrawal amount d now
      = Except.error (LedgerError.notFoundError (missing_account_msg a))
    ∧ applyOp s ⟨a, TransactionType.withdrawal, amount, d, now⟩ = s
    ∧ (applyOp s ⟨a, TransactionType.withdrawal, amount, d, now⟩).balances a = none := by
  have he := process_withdrawal_missing s a amount d now h0 hmiss
  have ha := applyOp_of_error s ⟨a, TransactionType.withdrawal, amount, d, now⟩ _ he
  exact ⟨he, ha, by rw [ha]; exact hmiss⟩

theorem C5_withdrawal_missing_account_witness :
    process_transaction emptyLedger "acc1" TransactionType.withdrawal 50 none 0
      = Except.error (LedgerError.notFoundError (missing_account_msg "acc1"))
    ∧ applyOp emptyLedger ⟨"acc1", TransactionType.withdrawal, 50, none, 0⟩
        = emptyLedger
    ∧ (applyOp emptyLedger
        ⟨"acc1", TransactionType.withdrawal, 50, none, 0⟩).balances "acc1" = none :=
  C5_withdrawal_missing_account emptyLedger "acc1" 50 none 0 (by rfl) (by decide)

/-- C6: on every reachable state, `get_balance` and `list_transactions` raise
the missing-account error exactly when no call of the sequence was processed
for the account, and a successful `get_balance` returns the stored balance. -/
theorem C6_reads_fail_iff_never_processed (ops : List Op) (a : String) :
    (get_balance (runOps emptyLedger ops) a
        = Except.error (LedgerError.notFoundError (missing_account_msg a))
      ↔ everProcessedFrom emptyLedger a ops = false)
    ∧ (list_transactions (runOps emptyLedger ops) a
        = Except.error (LedgerError.notFoundError (missing_account_msg a))
      ↔ everProcessedFrom emptyLedger a ops = false)
    ∧ (∀ b, get_balance (runOps emptyLedger ops) a = Except.ok b
        → (runOps emptyLedger ops).balances a = some b) := by
  have hbal : ((runOps emptyLedger ops).balances a).isSome
      = everProcessedFrom emptyLedger a ops :=
    calc ((runOps emptyLedger ops).balances a).isSome
        = ((emptyLedger.balances a).isSome || everProcessedFrom emptyLedger a ops) :=
          runOps_balances_isSome ops emptyLedger a
      _ = (false || everProcessedFrom emptyLedger a ops) := rfl
      _ = everProcessedFrom emptyLedger a ops := Bool.false_or _
  have htx : ((runOps emptyLedger ops).transactions a).isSome
      = everProcessedFrom emptyLedger a ops :=
    calc ((runOps emptyLedger ops).transactions a).isSome
        = ((emptyLedger.transactions a).isSome || everProcessedFrom emptyLedger a ops) :=
          runOps_transactions_isSome ops emptyLedger a
      _ = (false || everProcessedFrom emptyLedger a ops) := rfl
      _ = everProcessedFrom emptyLedger a ops := Bool.false_or _
  refine ⟨?_, ?_, ?_⟩
  · unfold get_balance
    cases hB : (runOps emptyLedger ops).balances a with
    | none =>
      rw [hB] at hbal
      simp only [Option.isSome_none] at hbal
      simp [← hbal]
    | some b0 =>
      rw [hB] at hbal
      simp only [Option.isSome_some] at hbal
      simp [← hbal]
  · unfold list_transactions
    cases hT : (runOps emptyLedger ops).transactions a with
    | none =>
      rw [hT] at htx
      simp only [Option.isSome_none] at htx
      simp [← htx]
    | some l0 =>
      rw [hT] at htx
      simp only [Option.isSome_some] at htx
      simp [← htx]
  · intro b hb
    unfold get_balance at hb
    cases hB : (runOps emptyLedger ops).balances a with
    | none => rw [hB] at hb; exact absurd hb (by simp)
    | some b0 => rw [hB] at hb; simpa using hb

theorem C6_reads_fail_iff_never_processed_witness :
    (runOps emptyLedger [⟨"acc1", TransactionType.deposit, 50, none, 0⟩]).balances "acc1"
      = some 50 :=
  (C6_reads_fail_iff_never_processed
    [⟨"acc1", TransactionType.deposit, 50, none, 0⟩] "acc1").2.2 50 (by with_unfolding_all rfl)

/-- C7: on every reachable state, a successful `list_transactions` returns a
non-empty log, and that log is exactly the sequence of transactions the run
successfully recorded for the account, in processing order. -/
theorem C7_log_is_processing_order (ops : List Op) (a : String)
    (l : List Transaction)
    (h : list_transactions (runOps emptyLedger ops) a = Except.ok l) :
    l ≠ [] ∧ l = recordedFrom emptyLedger a ops := by
  unfold list_transactions at h
  cases hT : (runOps emptyLedger ops).transactions a with
  | none => rw [hT] at h; exact absurd h (by simp)
  | some l0 =>
    rw [hT] at h
    simp only [Except.ok.injEq] at h
    subst h
    have hInv := inv_runOps ops emptyLedger inv_empty
    have hne := ((hInv a).2 l0 hT).1
    have hgetD := runOps_transactions_getD ops emptyLedger a
    rw [hT] at hgetD
    simp only [Option.getD_some, emptyLedger, Option.getD_none, List.nil_append] at hgetD
    exact ⟨hne, hgetD⟩

theorem C7_log_is_processing_order_witness :
    (((runOps emptyLedger opsDW).transactions "acc1").getD []) ≠ []
    ∧ (((runOps emptyLedger opsDW).transactions "acc1").getD [])
        = recordedFrom emptyLedger "acc1" opsDW :=
  C7_log_is_processing_order opsDW "acc1"
    (((runOps emptyLedger opsDW).transactions "acc1").getD []) (by with_unfolding_all rfl)

/-- C8: on every reachable state, the entry at index `i` of an account log
carries the id built from the fixed per-account stem and sequence number
`i + 1`, so the ids of one log are pairwise distinct. -/
theorem C8_ids_sequential_and_distinct (ops : List Op) (a : String)
    (l : List Transaction)
    (h : (runOps emptyLedger ops).transactions a = some l) :
    (∀ i (hi : i < l.length), (l.get ⟨i, hi⟩).id = transaction_id_for a (i + 1))
    ∧ (l.map Transaction.id).Nodup := by
  have hInv := inv_runOps ops emptyLedger inv_empty
  have hprops := ((hInv a).2 l h).2.1
  refine ⟨fun i hi => (hprops i hi).2, ?_⟩
  rw [List.nodup_iff_injective_get]
  intro i j hij
  have hi' : (i : Nat) < l.length := by
    have := i.2
    simpa using this
  have hj' : (j : Nat) < l.length := by
    have := j.2
    simpa using this
  rw [List.get_map, List.get_map] at hij
  have e1 := (hprops (i : Nat) hi').2
  have e2 := (hprops (j : Nat) hj').2
  have hids : transaction_id_for a ((i : Nat) + 1) = transaction_id_for a ((j : Nat) + 1) :=
    (e1.symm.trans hij).trans e2
  have := transaction_id_for_inj hids
  exact Fin.ext (by omega)

theorem C8_ids_sequential_and_distinct_witness :
    ((((runOps emptyLedger opsDW).transactions "acc1").getD []).get
        ⟨0, by with_unfolding_all decide⟩).id = transaction_id_for "acc1" 1
    ∧ ((((runOps emptyLedger opsDW).transactions "acc1").getD []).map
        Transaction.id).Nodup :=
  ⟨(C8_ids_sequential_and_distinct opsDW "acc1"
      (((runOps emptyLedger opsDW).transactions "acc1").getD []) (by with_unfolding_all rfl)).1 0 (by with_unfolding_all decide),
   (C8_ids_sequential_and_distinct opsDW "acc1"
      (((runOps emptyLedger opsDW).transactions "acc1").getD []) (by with_unfolding_all rfl)).2⟩

/-- C9: a successful call mutates only the targeted account; every other
account keeps its balance and its log. -/
theorem C9_frame_other_accounts (s s1 : LedgerService) (op : Op)
    (h : processOp s op = Except.ok s1) (c : String) (hc : c ≠ op.account_id) :
    s1.balances c = s.balances c ∧ s1.transactions c = s.transactions c := by
  obtain ⟨hs1, -, -⟩ := processOp_ok s op s1 h
  subst hs1
  exact ⟨successState_balances_ne s op hc, successState_transactions_ne s op hc⟩

theorem C9_frame_other_accounts_witness :
    (applyOp ledgerWith50 ⟨"accB", TransactionType.deposit, 100, none, 1⟩).balances "acc1"
        = ledgerWith50.balances "acc1"
    ∧ (applyOp ledgerWith50
        ⟨"accB", TransactionType.deposit, 100, none, 1⟩).transactions "acc1"
        = ledgerWith50.transactions "acc1" :=
  C9_frame_other_accounts ledgerWith50
    (applyOp ledgerWith50 ⟨"accB", TransactionType.deposit, 100, none, 1⟩)
    ⟨"accB", TransactionType.deposit, 100, none, 1⟩ (by with_unfolding_all rfl) "acc1" (by decide)

/-- C10: in every reachable state the two dictionaries know exactly the same
account ids, so `get_balance` and `list_transactions` succeed or fail
together. -/
theorem C10_domains_agree (ops : List Op) (a : String) :
    ((runOps emptyLedger ops).balances a).isSome
      = ((runOps emptyLedger ops).transactions a).isSome
    ∧ exceptOk (get_balance (runOps emptyLedger ops) a)
      = exceptOk (list_transactions (runOps emptyLedger ops) a) := by
  have hInv := inv_runOps ops emptyLedger inv_empty
  have hdom := (hInv a).1
  refine ⟨hdom, ?_⟩
  unfold get_balance list_transactions
  cases hB : (runOps emptyLedger ops).balances a with
  | none =>
    rw [hB] at hdom
    cases hT : (runOps emptyLedger ops).transactions a with
    | none => rfl
    | some l0 => rw [hT] at hdom; simp at hdom
  | some b0 =>
    rw [hB] at hdom
    cases hT : (runOps emptyLedger ops).transactions a with
    | none => rw [hT] at hdom; simp at hdom
    | some l0 => rfl

end TinyLedger
